import Mathlib

/-!
# Verification of the Uplink Service (`src/services/neuralUplink.ts`)

Shallow embedding of the service layer of *the-construct*: the data model
from `src/types/index.ts`, the `extractJSON` brace-scan extractor, the
`isValidOllamaPayload` runtime type guard, the `clamp` sanitiser and the
`interrogate` pipeline (message construction, transport classification,
parse/validate/clamp, and the catch block that maps internal errors to
in-universe messages).

Modelling conventions:
* JavaScript strings are modelled as `String` / `List Char`; the index
  arithmetic of `indexOf` / `lastIndexOf` / `substring` (including the
  argument swap `substring` performs when `start > end`) is embedded
  directly.
* JavaScript numbers on the psychometric axes are modelled as `Int`
  (the spec treats them as integers; float rounding is out of scope).
* `JSON.parse` is a JavaScript builtin, not repository code; it is
  modelled by an executable recursive-descent parser over the same
  `JsonValue` universe the type guard inspects (integer numerals, the
  common string escapes).  The pipeline theorems do not depend on the
  parser internals, only on its success or failure at each call site.
* The network is an explicit parameter: `interrogate` receives a function
  from the built request to a `FetchOutcome` (fetch threw, or a response
  with status / statusText / decoded body).
* Thrown `Error` values carry only their message string here, exactly the
  information the TypeScript code puts in them.
-/

/-- The opening-brace character, written by code point. -/
def openBrace : Char := Char.ofNat 123

/-- The closing-brace character, written by code point. -/
def closeBrace : Char := Char.ofNat 125

/-- JSON values as produced by `JSON.parse`: the universe inspected by the
`isValidOllamaPayload` type guard.  Object fields are kept in source order;
duplicate keys resolve to the last occurrence, as in JavaScript. -/
inductive JsonValue where
  | null : JsonValue
  | bool (b : Bool) : JsonValue
  | num (n : Int) : JsonValue
  | str (s : String) : JsonValue
  | arr (elems : List JsonValue) : JsonValue
  | obj (fields : List (String × JsonValue)) : JsonValue

/-- Property lookup with JavaScript `JSON.parse` duplicate-key semantics:
the last binding of a key wins. -/
def lookupLast (key : String) : List (String × JsonValue) → Option JsonValue
  | [] => none
  | (k, v) :: rest =>
    match lookupLast key rest with
    | some w => some w
    | none => if k = key then some v else none

/-- JavaScript property access `v[key]` on a decoded JSON value: defined on
objects, `undefined` (here `none`) everywhere else. -/
def jget (v : JsonValue) (key : String) : Option JsonValue :=
  match v with
  | .obj fields => lookupLast key fields
  | _ => none

/-- JavaScript `typeof v === 'object'`: true for objects, arrays and `null`. -/
def typeofObject : JsonValue → Bool
  | .obj _ => true
  | .arr _ => true
  | .null => true
  | _ => false

/-- `v === null`. -/
def isNullJson : JsonValue → Bool
  | .null => true
  | _ => false

/-- `isValidOllamaPayload` (src/services/neuralUplink.ts, lines 421-458):
the runtime type guard run on the value produced by `JSON.parse`.
Checks, in the source's order: the payload is a non-null object; `reply`
is a string; `psych_profile` is a non-null object; its `stability`,
`aggression` and `deception` fields are numbers. -/
def isValidOllamaPayload (payload : JsonValue) : Bool :=
  if typeofObject payload = false || isNullJson payload then false
  else
    match jget payload "reply" with
    | some (.str _) =>
      match jget payload "psych_profile" with
      | some profile =>
        if typeofObject profile = false || isNullJson profile then false
        else
          match jget profile "stability", jget profile "aggression",
                jget profile "deception" with
          | some (.num _), some (.num _), some (.num _) => true
          | _, _, _ => false
      | none => false
    | _ => false

/-- Index of the first occurrence of `c`, i.e. JavaScript
`raw.indexOf(c)` with `-1` rendered as `none`. -/
def firstIdx (c : Char) : List Char → Option Nat
  | [] => none
  | x :: xs => if x = c then some 0 else (firstIdx c xs).map (· + 1)

/-- Index of the last occurrence of `c`, i.e. JavaScript
`raw.lastIndexOf(c)` with `-1` rendered as `none`. -/
def lastIdx (c : Char) (l : List Char) : Option Nat :=
  (firstIdx c l.reverse).map (fun k => l.length - 1 - k)

/-- JavaScript `String.prototype.substring(a, b)`: indices are clamped to
the string and swapped when `a > b`; the result is the half-open slice
between the smaller and the larger index. -/
def jsSubstring (s : List Char) (a b : Nat) : List Char :=
  (s.take (max a b)).drop (min a b)

/-- `extractJSON` (src/services/neuralUplink.ts, lines 133-151): find the
first `\x7b` and the last `\x7d`; if either is absent the function throws
(`none` here); otherwise it returns `raw.substring(firstBrace, lastBrace + 1)`. -/
def extractJSON (raw : List Char) : Option (List Char) :=
  match firstIdx openBrace raw, lastIdx closeBrace raw with
  | some i, some j => some (jsSubstring raw i (j + 1))
  | _, _ => none

/-- The `clamp` arrow function inside `interrogate`
(src/services/neuralUplink.ts, line 347): `Math.max(0, Math.min(100, value))`. -/
def clamp (value : Int) : Int := max 0 (min 100 value)

/-- Skip JSON insignificant whitespace. -/
def skipWs : List Char → List Char
  | [] => []
  | c :: rest =>
    if c = ' ' || c = '\n' || c = '\t' || c = '\r' then skipWs rest else c :: rest

/-- Parse a non-empty run of decimal digits into a natural number. -/
def parseDigits (input : List Char) : Option (Nat × List Char) :=
  let ds := input.takeWhile (fun c => c.isDigit)
  let rest := input.dropWhile (fun c => c.isDigit)
  if ds.isEmpty then none
  else some (ds.foldl (fun a c => a * 10 + (c.toNat - 48)) 0, rest)

/-- Decode one JSON string escape character (the character after a backslash). -/
def escChar (e : Char) : Option Char :=
  if e = '\"' then some '\"'
  else if e = '\\' then some '\\'
  else if e = '/' then some '/'
  else if e = 'n' then some '\n'
  else if e = 't' then some '\t'
  else if e = 'r' then some '\r'
  else none

/-- Parse the body of a JSON string (after the opening quote) up to its
closing quote, decoding escapes; returns the decoded characters and the
remaining input. -/
def parseStrChars : List Char → Option (List Char × List Char)
  | [] => none
  | c :: rest =>
    if c = '\"' then some ([], rest)
    else if c = '\\' then
      match rest with
      | [] => none
      | e :: rest2 =>
        match escChar e with
        | some ec => (parseStrChars rest2).map (fun p => (ec :: p.1, p.2))
        | none => none
    else (parseStrChars rest).map (fun p => (c :: p.1, p.2))

mutual

/-- Fueled recursive-descent model of `JSON.parse` on one value.
Numerals are modelled as integers (see the module header). -/
def parseValue : Nat → List Char → Option (JsonValue × List Char)
  | 0, _ => none
  | fuel + 1, input =>
    match skipWs input with
    | [] => none
    | c :: rest =>
      if c = '\"' then (parseStrChars rest).map fun p => (.str (String.mk p.1), p.2)
      else if c = openBrace then parseObjBody fuel rest
      else if c = '[' then parseArrBody fuel rest
      else if c = 't' then
        if rest.take 3 = ['r', 'u', 'e'] then some (.bool true, rest.drop 3) else none
      else if c = 'f' then
        if rest.take 4 = ['a', 'l', 's', 'e'] then some (.bool false, rest.drop 4)
        else none
      else if c = 'n' then
        if rest.take 3 = ['u', 'l', 'l'] then some (.null, rest.drop 3) else none
      else if c = '-' then
        (parseDigits rest).map fun p => (.num (-(p.1 : Int)), p.2)
      else if c.isDigit then
        (parseDigits (c :: rest)).map fun p => (.num (p.1 : Int), p.2)
      else none

/-- Parse an object body (after the opening brace). -/
def parseObjBody : Nat → List Char → Option (JsonValue × List Char)
  | 0, _ => none
  | fuel + 1, input =>
    match skipWs input with
    | [] => none
    | c :: rest =>
      if c = closeBrace then some (.obj [], rest)
      else parseObjItems fuel (c :: rest) []

/-- Parse `"key": value` members separated by commas, ending at a closing
brace; fields accumulate in source order. -/
def parseObjItems : Nat → List Char → List (String × JsonValue) →
    Option (JsonValue × List Char)
  | 0, _, _ => none
  | fuel + 1, input, acc =>
    match skipWs input with
    | [] => none
    | c :: rest =>
      if c = '\"' then
        match parseStrChars rest with
        | some (keyChars, rest1) =>
          match skipWs rest1 with
          | ':' :: rest2 =>
            match parseValue fuel rest2 with
            | some (v, rest3) =>
              match skipWs rest3 with
              | ',' :: rest4 => parseObjItems fuel rest4 (acc ++ [(String.mk keyChars, v)])
              | d :: rest4 =>
                if d = closeBrace then some (.obj (acc ++ [(String.mk keyChars, v)]), rest4)
                else none
              | [] => none
            | none => none
          | _ => none
        | none => none
      else none

/-- Parse an array body (after the opening bracket). -/
def parseArrBody : Nat → List Char → Option (JsonValue × List Char)
  | 0, _ => none
  | fuel + 1, input =>
    match skipWs input with
    | [] => none
    | c :: rest =>
      if c = ']' then some (.arr [], rest)
      else parseArrItems fuel (c :: rest) []

/-- Parse comma-separated array elements ending at a closing bracket. -/
def parseArrItems : Nat → List Char → List JsonValue →
    Option (JsonValue × List Char)
  | 0, _, _ => none
  | fuel + 1, input, acc =>
    match parseValue fuel input with
    | some (v, rest) =>
      match skipWs rest with
      | ',' :: rest2 => parseArrItems fuel rest2 (acc ++ [v])
      | ']' :: rest2 => some (.arr (acc ++ [v]), rest2)
      | _ => none
    | none => none

end

/-- Model of `JSON.parse`: parse one value and require only trailing
whitespace after it, else fail (as the builtin throws a `SyntaxError`). -/
def jsonParse (s : List Char) : Option JsonValue :=
  match parseValue (s.length + 1) s with
  | some (v, rest) => if (skipWs rest).isEmpty then some v else none
  | none => none

/-- `PsychProfile` (src/types/index.ts, lines 33-57): the three psychometric
axes plus the derived Red-Zone flag. -/
structure PsychProfile where
  stability : Int
  aggression : Int
  deception : Int
  isCritical : Bool
deriving DecidableEq

/-- The two visual themes of `Subject.visualTheme`. -/
inductive VisualTheme where
  | cyberNoir : VisualTheme
  | highContrast : VisualTheme
deriving DecidableEq

/-- `Subject` (src/types/index.ts, lines 69-122): persona configuration. -/
structure Subject where
  id : String
  name : String
  modelID : String
  systemPrompt : String
  visualTheme : VisualTheme
  initialStats : PsychProfile
deriving DecidableEq

/-- The `ChatMessage.role` discriminator: `admin` or `subject`. -/
inductive Role where
  | admin : Role
  | subject : Role
deriving DecidableEq

/-- `ChatMessage` (src/types/index.ts, lines 134-163): one terminal log entry. -/
structure ChatMessage where
  id : String
  role : Role
  content : String
  timestamp : Int
  psychSnapshot : Option PsychProfile := none
deriving DecidableEq

/-- `OllamaResponse` (src/types/index.ts, lines 185-201), as `interrogate`
returns it: the reply text and the transformed `PsychProfile`. -/
structure OllamaResponse where
  reply : String
  psych_profile : PsychProfile
deriving DecidableEq

/-- One role-tagged message of the request built inside `interrogate`. -/
structure OllamaMsg where
  role : String
  content : String
deriving DecidableEq

/-- The JSON body `interrogate` posts to `/api/chat`. -/
structure OllamaRequest where
  model : String
  messages : List OllamaMsg
  stream : Bool
  format : String
deriving DecidableEq

/-- What the single `fetch` call produced: the promise rejected before any
HTTP response (`networkError`), or a response with its status code, status
text and decoded JSON body (`none` when `response.json()` rejects). -/
inductive FetchOutcome where
  | networkError : FetchOutcome
  | response (status : Nat) (statusText : String) (body : Option JsonValue) : FetchOutcome

/-- `Response.ok` of the Fetch API: status in the inclusive range 200-299. -/
def respOk (status : Nat) : Bool := 200 ≤ status && status < 300

/-- Message-array construction at the head of `interrogate`
(src/services/neuralUplink.ts, lines 185-223): start from the hidden
system message, push one mapped message per history entry
(`admin` to `user`, `subject` to `assistant`, content untouched), then
push the new prompt as a final user message. -/
def buildMessages (subject : Subject) (history : List ChatMessage)
    (userPrompt : String) : List OllamaMsg :=
  let messages : List OllamaMsg := [⟨"system", subject.systemPrompt⟩]
  let messages := history.foldl
    (fun acc msg =>
      acc ++ [⟨if msg.role = Role.admin then "user" else "assistant", msg.content⟩])
    messages
  messages ++ [⟨"user", userPrompt⟩]

/-- The request body of the `fetch` call (src/services/neuralUplink.ts,
lines 237-263). -/
def buildRequest (subject : Subject) (history : List ChatMessage)
    (userPrompt : String) : OllamaRequest :=
  { model := subject.modelID
    messages := buildMessages subject history userPrompt
    stream := false
    format := "json" }

/-- The in-universe tag the catch block greps for. -/
def signalCorruptedTag : String := "[SIGNAL CORRUPTED]"

/-- Message of the error `extractJSON` throws. -/
def extractErrMsg : String :=
  "[SIGNAL CORRUPTED] No valid JSON structure detected in LLM response."

/-- Message of the error thrown when the fetch call itself rejects. -/
def uplinkSeveredMsg : String :=
  "[UPLINK SEVERED] Neural bridge offline. Check Ollama status and CORS configuration."

/-- Message of the generic decode error the catch block substitutes. -/
def decodeErrMsg : String :=
  "[SIGNAL CORRUPTED] Unable to decode subject response."

/-- Message of the error thrown on a non-success HTTP status. -/
def uplinkErrorMsg (status : Nat) (statusText : String) : String :=
  "[UPLINK ERROR] Ollama returned status " ++ toString status ++ ": " ++ statusText

/-- Does `needle` occur at the head of `hay`? (`List.IsPrefix`, executable.) -/
def leadsWith : List Char → List Char → Bool
  | [], _ => true
  | _ :: _, [] => false
  | a :: as, b :: bs => a = b && leadsWith as bs

/-- JavaScript `hay.includes(needle)`: does `needle` occur contiguously
anywhere in `hay`? -/
def containsSeq (needle : List Char) : List Char → Bool
  | [] => needle.isEmpty
  | h :: t => leadsWith needle (h :: t) || containsSeq needle t

/-- `String.prototype.includes` as used by the catch block. -/
def strIncludes (hay needle : String) : Bool := containsSeq needle.data hay.data

/-- The `message.content` field of the response envelope when it holds a
string — the shape the `const rawContent: string = data.message.content`
assignment anticipates.  Used to state the string-content cases of the
pipeline theorems; `tryParse` itself navigates the envelope field by
field, because the `string` annotation is erased at runtime and
non-string values flow onward (see `extractJSONCall`). -/
def envContent (data : JsonValue) : Option String :=
  match jget data "message" with
  | some m =>
    match jget m "content" with
    | some (.str s) => some s
    | _ => none
  | none => none

/-- JavaScript strict equality of a decoded JSON value with the
one-character string `"\x7b"`: only that string compares equal under
`===`, which is what `Array.prototype.indexOf` uses. -/
def jsEqOpenBrace : JsonValue → Bool
  | .str s => s = "\x7b"
  | _ => false

/-- Strict equality with the one-character string `"\x7d"`. -/
def jsEqCloseBrace : JsonValue → Bool
  | .str s => s = "\x7d"
  | _ => false

/-- The `extractJSON(rawContent)` call as executed at runtime, where the
`string` annotation on `rawContent` has been erased.  A string value gets
the brace scan of `extractJSON`, throwing the tagged extraction error
when a brace is missing.  An array value also responds to `indexOf` /
`lastIndexOf` (element-wise strict equality, so only an element that is
the one-character brace string counts): a missing brace element throws
the tagged extraction error, while finding both reaches the `substring`
call, which arrays lack, and throws an untagged `TypeError`.  Every other
value throws an untagged `TypeError` already at the `indexOf` call.
Errors are the thrown messages. -/
def extractJSONCall (content : JsonValue) : Except String (List Char) :=
  match content with
  | .str s =>
    match extractJSON s.data with
    | some cleanJSON => .ok cleanJSON
    | none => .error extractErrMsg
  | .arr elems =>
    if elems.any jsEqOpenBrace && elems.any jsEqCloseBrace then
      .error "TypeError: rawContent.substring is not a function"
    else .error extractErrMsg
  | _ => .error "TypeError: rawContent.indexOf is not a function"

/-- The try block of `interrogate`'s response parsing
(src/services/neuralUplink.ts, lines 308-359): `response.json()`,
`data.message.content`, `extractJSON`, `JSON.parse`,
`isValidOllamaPayload`, the cast, the per-axis `clamp` and the
`isCritical` derivation.  Errors are the thrown messages: only the
extraction error carries the `[SIGNAL CORRUPTED]` tag; the stand-in
messages for the builtin `SyntaxError` / `TypeError` rejections carry
none, which is all the catch block observes of them. -/
def tryParse (body : Option JsonValue) : Except String OllamaResponse :=
  match body with
  | none => .error "SyntaxError: unexpected end of JSON input"
  | some data =>
    match jget data "message" with
    | none => .error "TypeError: cannot read properties of undefined"
    | some m =>
      match jget m "content" with
      | none => .error "TypeError: rawContent.indexOf is not a function"
      | some content =>
        match extractJSONCall content with
        | .error e => .error e
        | .ok cleanJSON =>
          match jsonParse cleanJSON with
          | none => .error "SyntaxError: unexpected token in JSON"
          | some parsed =>
            if isValidOllamaPayload parsed = false then
              .error "Payload structure validation failed."
            else
              match jget parsed "reply", jget parsed "psych_profile" with
              | some (.str reply), some profile =>
                (match jget profile "stability", jget profile "aggression",
                       jget profile "deception" with
                 | some (.num rawStability), some (.num rawAggression),
                   some (.num rawDeception) =>
                   let stability := clamp rawStability
                   let aggression := clamp rawAggression
                   let deception := clamp rawDeception
                   .ok { reply := reply
                         psych_profile :=
                           { stability := stability
                             aggression := aggression
                             deception := deception
                             isCritical := decide (stability < 30) } }
                 | _, _, _ => .error "TypeError: cast precondition broken")
              | _, _ => .error "TypeError: cast precondition broken"

/-- The catch block (src/services/neuralUplink.ts, lines 361-383): an error
whose message includes `[SIGNAL CORRUPTED]` is re-thrown unchanged; every
other error from the try block is replaced by the generic decode error. -/
def parsePhase (body : Option JsonValue) : Except String OllamaResponse :=
  match tryParse body with
  | .ok r => .ok r
  | .error m =>
    if strIncludes m signalCorruptedTag then .error m
    else .error decodeErrMsg

/-- `interrogate` (src/services/neuralUplink.ts, lines 169-395): build the
message list, post it, classify transport failures, then run the parse
phase on the body of a successful response.  The network is the explicit
`net` parameter mapping the built request to its outcome. -/
def interrogate (net : OllamaRequest → FetchOutcome) (subject : Subject)
    (history : List ChatMessage) (userPrompt : String) :
    Except String OllamaResponse :=
  match net (buildRequest subject history userPrompt) with
  | .networkError => .error uplinkSeveredMsg
  | .response status statusText body =>
    if respOk status = false then .error (uplinkErrorMsg status statusText)
    else parsePhase body

/-! ## Reference predicate and test fixtures -/

/-- The validation rules exactly as the spec words them (the reference for
the refinement claim C7): the decoded value is a non-null object, its
`reply` field is a string, its `psych_profile` field is a non-null object,
and that nested object's three axis fields are each present as numbers. -/
def validPayloadSpec (v : JsonValue) : Prop :=
  (∃ fields, v = JsonValue.obj fields) ∧
  (∃ s, jget v "reply" = some (.str s)) ∧
  (∃ profile, jget v "psych_profile" = some profile ∧
    (∃ pf, profile = JsonValue.obj pf) ∧
    (∃ a, jget profile "stability" = some (.num a)) ∧
    (∃ b, jget profile "aggression" = some (.num b)) ∧
    (∃ c, jget profile "deception" = some (.num c)))

/-- A persona-configuration fixture in the shape of `src/data/subjects.ts`. -/
def subj0 : Subject :=
  { id := "AUR-0001", name := "Aurelius", modelID := "gaius:latest",
    systemPrompt := "HIDDEN-DIRECTIVE-7", visualTheme := .cyberNoir,
    initialStats := { stability := 50, aggression := 50, deception := 50,
                      isCritical := false } }

/-- Response envelope of end-to-end scenario A: the payload wrapped in
conversational text. -/
def envA : JsonValue :=
  .obj [("message", .obj [("content",
    .str "Here you go: \x7b\"reply\":\"Denied.\",\"psych_profile\":\x7b\"stability\":55,\"aggression\":25,\"deception\":90\x7d\x7d")])]

/-- A network returning scenario A with a success status. -/
def netA : OllamaRequest → FetchOutcome := fun _ => .response 200 "OK" (some envA)

/-- The validated result of scenario A. -/
def respA : OllamaResponse :=
  { reply := "Denied.",
    psych_profile :=
      { stability := 55, aggression := 25, deception := 90, isCritical := false } }

/-- Response envelope of end-to-end scenario D: the payload parses but
lacks `psych_profile`. -/
def envD : JsonValue :=
  .obj [("message", .obj [("content", .str "\x7b\"reply\":\"ok\"\x7d")])]

/-- A network returning scenario D with a success status. -/
def netD : OllamaRequest → FetchOutcome := fun _ => .response 200 "OK" (some envD)

/-- A response envelope whose extracted span is not valid JSON. -/
def envBadJson : JsonValue :=
  .obj [("message", .obj [("content", .str "\x7bnope\x7d")])]

/-- A network returning the undecodable envelope with a success status. -/
def netBadJson : OllamaRequest → FetchOutcome :=
  fun _ => .response 200 "OK" (some envBadJson)

/-- Response envelope of end-to-end scenario C: no brace anywhere. -/
def envC : JsonValue :=
  .obj [("message", .obj [("content", .str "I cannot comply.")])]

/-- A network returning scenario C with a success status. -/
def netC : OllamaRequest → FetchOutcome := fun _ => .response 200 "OK" (some envC)

/-- A network whose response body fails to decode as JSON. -/
def netNoBody : OllamaRequest → FetchOutcome := fun _ => .response 200 "OK" none

/-- A response envelope whose `message.content` is a JSON array: the
erased `string` annotation lets it reach the brace scan, where the empty
array has no brace element. -/
def envArr : JsonValue := .obj [("message", .obj [("content", .arr [])])]

/-- A network returning the array-content envelope with a success status. -/
def netArr : OllamaRequest → FetchOutcome := fun _ => .response 200 "OK" (some envArr)

/-- A response envelope in which the model echoes the hidden instruction
text back inside its reply field. -/
def envEcho : JsonValue :=
  .obj [("message", .obj [("content",
    .str "\x7b\"reply\":\"HIDDEN-DIRECTIVE-7\",\"psych_profile\":\x7b\"stability\":50,\"aggression\":50,\"deception\":50\x7d\x7d")])]

/-- A network returning the echoing envelope with a success status. -/
def netEcho : OllamaRequest → FetchOutcome :=
  fun _ => .response 200 "OK" (some envEcho)

/-- The validated result of the echoing envelope. -/
def respEcho : OllamaResponse :=
  { reply := "HIDDEN-DIRECTIVE-7",
    psych_profile :=
      { stability := 50, aggression := 50, deception := 50, isCritical := false } }


/-! ## Helper lemmas for the extraction parser -/

theorem firstIdx_eq_none (c : Char) (l : List Char) :
    firstIdx c l = none ↔ c ∉ l := by
  induction l with
  | nil => simp [firstIdx]
  | cons x xs ih =>
    by_cases hx : x = c
    · subst hx; simp [firstIdx]
    · simp only [firstIdx, if_neg hx, Option.map_eq_none', ih, List.mem_cons, not_or]
      constructor
      · intro h
        exact ⟨fun hcx => hx hcx.symm, h⟩
      · intro h
        exact h.2

theorem firstIdx_spec (c : Char) (l : List Char) (i : Nat)
    (h : firstIdx c l = some i) :
    ∃ u v, l = u ++ c :: v ∧ u.length = i ∧ c ∉ u := by
  induction l generalizing i with
  | nil => simp [firstIdx] at h
  | cons x xs ih =>
    by_cases hx : x = c
    · subst hx
      simp [firstIdx] at h
      exact ⟨[], xs, rfl, h, by simp⟩
    · simp only [firstIdx, if_neg hx, Option.map_eq_some'] at h
      obtain ⟨k, hk, hki⟩ := h
      obtain ⟨u, v, hl, hu, hcu⟩ := ih k hk
      refine ⟨x :: u, v, by simp [hl], by simp [hu, hki], ?_⟩
      simp only [List.mem_cons, not_or]
      exact ⟨fun hcx => hx hcx.symm, hcu⟩

theorem lastIdx_eq_none (c : Char) (l : List Char) :
    lastIdx c l = none ↔ c ∉ l := by
  unfold lastIdx
  rw [Option.map_eq_none', firstIdx_eq_none]
  simp

theorem lastIdx_spec (c : Char) (l : List Char) (j : Nat)
    (h : lastIdx c l = some j) :
    ∃ p q, l = p ++ c :: q ∧ p.length = j ∧ c ∉ q := by
  unfold lastIdx at h
  rw [Option.map_eq_some'] at h
  obtain ⟨k, hk, hkj⟩ := h
  obtain ⟨u, v, hrev, hu, hcu⟩ := firstIdx_spec c l.reverse k hk
  have hl : l = v.reverse ++ c :: u.reverse := by
    have := congrArg List.reverse hrev
    simpa using this
  have hlen : l.length = k + 1 + v.length := by
    have := congrArg List.length hrev
    simp [hu] at this
    simpa [this] using by omega
  refine ⟨v.reverse, u.reverse, hl, ?_, by simpa using hcu⟩
  simp only [List.length_reverse]
  omega

theorem extractJSON_span (raw : List Char) (i j : Nat)
    (hf : firstIdx openBrace raw = some i) (hl : lastIdx closeBrace raw = some j)
    (hij : i ≤ j) :
    extractJSON raw = some ((raw.take (j + 1)).drop i) ∧
    ((raw.take (j + 1)).drop i).head? = some openBrace ∧
    ((raw.take (j + 1)).drop i).getLast? = some closeBrace := by
  obtain ⟨u, v, hluv, hui, hcu⟩ := firstIdx_spec _ _ _ hf
  obtain ⟨p, q, hlpq, hpj, hcq⟩ := lastIdx_spec _ _ _ hl
  have hsub : jsSubstring raw i (j + 1) = (raw.take (j + 1)).drop i := by
    unfold jsSubstring
    have hmin : min i (j + 1) = i := by omega
    have hmax : max i (j + 1) = j + 1 := by omega
    rw [hmin, hmax]
  have hextract : extractJSON raw = some ((raw.take (j + 1)).drop i) := by
    unfold extractJSON
    rw [hf, hl]
    simp only [hsub]
  have htake1 : raw.take (j + 1) = u ++ openBrace :: v.take (j - i) := by
    conv_lhs => rw [hluv]
    rw [List.take_append_eq_append_take, List.take_of_length_le (by omega), hui]
    have hji : j + 1 - i = (j - i) + 1 := by omega
    rw [hji, List.take_succ_cons]
  have hhead : ((raw.take (j + 1)).drop i).head? = some openBrace := by
    rw [htake1]
    have hdrop : (u ++ openBrace :: v.take (j - i)).drop i =
        openBrace :: v.take (j - i) := by
      have := List.drop_left u (openBrace :: v.take (j - i))
      rwa [hui] at this
    rw [hdrop]
    rfl
  have htake2 : raw.take (j + 1) = p ++ [closeBrace] := by
    conv_lhs => rw [hlpq]
    rw [List.take_append_eq_append_take, List.take_of_length_le (by omega), hpj]
    have h1 : j + 1 - j = 1 := by omega
    rw [h1]
    rfl
  have hlast : ((raw.take (j + 1)).drop i).getLast? = some closeBrace := by
    rw [htake2, List.drop_append_eq_append_drop]
    have h0 : i - p.length = 0 := by omega
    rw [h0, List.drop_zero]
    exact List.getLast?_concat _
  exact ⟨hextract, hhead, hlast⟩

theorem extractJSON_idem_core (raw : List Char) (i j : Nat)
    (hf : firstIdx openBrace raw = some i) (hl : lastIdx closeBrace raw = some j)
    (hij : i ≤ j) (S : List Char) (hS : extractJSON raw = some S) :
    extractJSON S = some S := by
  obtain ⟨hex, hhead, hlast⟩ := extractJSON_span raw i j hf hl hij
  rw [hS] at hex
  have hSspan : S = (raw.take (j + 1)).drop i := by
    exact Option.some.inj hex
  rw [← hSspan] at hhead hlast
  obtain ⟨t, ht⟩ : ∃ t, S = openBrace :: t := by
    cases S with
    | nil => simp at hhead
    | cons a t =>
      simp only [List.head?_cons, Option.some.injEq] at hhead
      exact ⟨t, by rw [hhead]⟩
  obtain ⟨m, hm⟩ : ∃ m, S = m ++ [closeBrace] := by
    cases hgl : S.getLast? with
    | none => rw [hgl] at hlast; simp at hlast
    | some a =>
      rw [hgl] at hlast
      obtain rfl : a = closeBrace := by simpa using hlast
      exact (List.getLast?_eq_some_iff.mp hgl)
  have hfirstS : firstIdx openBrace S = some 0 := by
    rw [ht]
    simp [firstIdx]
  have hrevS : S.reverse = closeBrace :: m.reverse := by
    rw [hm]
    simp
  have hlastS : lastIdx closeBrace S = some (S.length - 1) := by
    unfold lastIdx
    rw [hrevS]
    simp [firstIdx]
  have hlen : 1 ≤ S.length := by
    rw [ht]; simp
  unfold extractJSON
  rw [hfirstS, hlastS]
  have h1 : S.length - 1 + 1 = S.length := by omega
  show some (jsSubstring S 0 (S.length - 1 + 1)) = some S
  rw [h1]
  unfold jsSubstring
  simp

theorem extractJSON_eq_none (raw : List Char) :
    extractJSON raw = none ↔ openBrace ∉ raw ∨ closeBrace ∉ raw := by
  unfold extractJSON
  cases hf : firstIdx openBrace raw with
  | none =>
    rw [firstIdx_eq_none] at hf
    simp [hf]
  | some i =>
    have hmem1 : openBrace ∈ raw := by
      by_contra hno
      rw [← firstIdx_eq_none] at hno
      rw [hno] at hf
      cases hf
    cases hl : lastIdx closeBrace raw with
    | none =>
      rw [lastIdx_eq_none] at hl
      simp [hl]
    | some j =>
      have hmem2 : closeBrace ∈ raw := by
        by_contra hno
        rw [← lastIdx_eq_none] at hno
        rw [hno] at hl
        cases hl
      simp [hmem1, hmem2]

/-! ## Claims C3 and C4: the extraction parser -/

/-- C3 (amended): `extractJSON` fails exactly when the input contains no
opening or no closing brace; and whenever the first opening brace sits at
an index no greater than the last closing brace, it returns the span from
the first opening brace through the last closing brace inclusive, which
starts with an opening brace and ends with a closing brace.  (The
amendment adds the index-order hypothesis: when the last closing brace
precedes the first opening brace, JavaScript `substring` swaps its
endpoints and the guarantee fails — see the counterexample.) -/
theorem extractJSON_contract (raw : List Char) :
    (extractJSON raw = none ↔ openBrace ∉ raw ∨ closeBrace ∉ raw) ∧
    (∀ i j, firstIdx openBrace raw = some i → lastIdx closeBrace raw = some j →
      i ≤ j →
      extractJSON raw = some ((raw.take (j + 1)).drop i) ∧
      ((raw.take (j + 1)).drop i).head? = some openBrace ∧
      ((raw.take (j + 1)).drop i).getLast? = some closeBrace) :=
  ⟨extractJSON_eq_none raw, fun i j hf hl hij => extractJSON_span raw i j hf hl hij⟩

/-- C3 counterexample: on `"\x7da\x7b"` (closing brace, `a`, opening
brace) `extractJSON` succeeds — both braces are present — yet returns
`"a"`, which neither starts with an opening brace nor ends with a closing
brace, refuting the unconditional contract of the claim. -/
theorem extractJSON_contract_cex :
    extractJSON (String.data "\x7da\x7b") = some (String.data "a") ∧
    (String.data "a").head? ≠ some openBrace ∧
    (String.data "a").getLast? ≠ some closeBrace := by
  refine ⟨?_, ?_, ?_⟩ <;> decide

/-- Witness for C3: on `"x\x7ba\x7dy"` the first opening brace (index 1)
precedes the last closing brace (index 3) and the returned span is
brace-delimited. -/
theorem extractJSON_contract_witness :
    extractJSON (String.data "x\x7ba\x7dy") =
      some (((String.data "x\x7ba\x7dy").take 4).drop 1) ∧
    (((String.data "x\x7ba\x7dy").take 4).drop 1).head? = some openBrace ∧
    (((String.data "x\x7ba\x7dy").take 4).drop 1).getLast? = some closeBrace :=
  (extractJSON_contract (String.data "x\x7ba\x7dy")).2 1 3 (by decide) (by decide)
    (by decide)

/-- C4 (amended): extraction is idempotent on every input whose first
opening brace sits at an index no greater than its last closing brace:
if `extractJSON` succeeds there producing `S`, then `extractJSON S`
succeeds and returns `S` unchanged.  (The amendment adds the index-order
hypothesis: on inverted inputs the produced slice contains no brace at
all and re-extraction fails — see the counterexample.) -/
theorem extractJSON_idempotence (raw S : List Char) (i j : Nat)
    (hf : firstIdx openBrace raw = some i) (hl : lastIdx closeBrace raw = some j)
    (hij : i ≤ j) (hS : extractJSON raw = some S) :
    extractJSON S = some S :=
  extractJSON_idem_core raw i j hf hl hij S hS

/-- C4 counterexample: `extractJSON` succeeds on `"\x7da\x7b"` producing
`"a"`, but running it again on `"a"` fails, refuting unconditional
idempotence. -/
theorem extractJSON_idempotence_cex :
    extractJSON (String.data "\x7da\x7b") = some (String.data "a") ∧
    extractJSON (String.data "a") = none := by
  refine ⟨?_, ?_⟩ <;> decide

/-- Witness for C4: re-extracting the brace-tight span produced from
`"x\x7ba\x7dy"` returns it unchanged. -/
theorem extractJSON_idempotence_witness :
    extractJSON (String.data "\x7ba\x7d") = some (String.data "\x7ba\x7d") :=
  extractJSON_idempotence (String.data "x\x7ba\x7dy") (String.data "\x7ba\x7d") 1 3
    (by decide) (by decide) (by decide) (by decide)

/-! ## Claims C5 and C6: request building and clamping -/

theorem foldl_push_map (g : ChatMessage → OllamaMsg) :
    ∀ (history : List ChatMessage) (acc : List OllamaMsg),
      history.foldl (fun a m => a ++ [g m]) acc = acc ++ history.map g
  | [], acc => by simp
  | m :: t, acc => by
    simp only [List.foldl_cons, List.map_cons]
    rw [foldl_push_map g t]
    simp

/-- C5: the message list `interrogate` builds is exactly one system message
carrying the hidden instructions, then one message per prior turn in
original order (`admin` mapped to `user`, `subject` mapped to `assistant`,
content unchanged), then one final user message carrying the new input —
so its length is always the history length plus two (five elements for a
three-turn history). -/
theorem buildMessages_ordering (subject : Subject) (history : List ChatMessage)
    (userPrompt : String) :
    buildMessages subject history userPrompt =
      (⟨"system", subject.systemPrompt⟩ : OllamaMsg) ::
        ((history.map fun msg =>
          (⟨if msg.role = Role.admin then "user" else "assistant",
            msg.content⟩ : OllamaMsg))
          ++ [⟨"user", userPrompt⟩]) ∧
    (buildMessages subject history userPrompt).length = history.length + 2 := by
  have h := foldl_push_map
    (fun msg => (⟨if msg.role = Role.admin then "user" else "assistant",
      msg.content⟩ : OllamaMsg))
    history [⟨"system", subject.systemPrompt⟩]
  constructor
  · simp only [buildMessages]
    rw [h]
    simp
  · simp only [buildMessages]
    rw [h]
    simp

/-- C6: the clamp applied to each psychometric axis satisfies the clamping
law: values already in the closed interval 0 to 100 pass through
unchanged, negative values become 0, values above 100 become 100. -/
theorem clamp_law (raw : Int) :
    (0 ≤ raw → raw ≤ 100 → clamp raw = raw) ∧
    (raw < 0 → clamp raw = 0) ∧
    (100 < raw → clamp raw = 100) := by
  unfold clamp
  refine ⟨fun h1 h2 => ?_, fun h => ?_, fun h => ?_⟩
  · rw [min_eq_right h2, max_eq_right h1]
  · rw [min_eq_right (by omega : raw ≤ (100 : Int)),
      max_eq_left (by omega : raw ≤ (0 : Int))]
  · rw [min_eq_left (by omega : (100 : Int) ≤ raw)]
    decide

/-- Witness for C6: the three clamp regimes at 50, -7 and 120. -/
theorem clamp_law_witness : clamp 50 = 50 ∧ clamp (-7) = 0 ∧ clamp 120 = 100 :=
  ⟨(clamp_law 50).1 (by decide) (by decide), (clamp_law (-7)).2.1 (by decide),
   (clamp_law 120).2.2 (by decide)⟩

/-! ## Claim C7: the payload type guard -/

/-- Property lookup only succeeds on objects. -/
theorem jget_some_obj (v : JsonValue) (k : String) (x : JsonValue)
    (h : jget v k = some x) : ∃ fields, v = JsonValue.obj fields := by
  cases v <;> simp [jget] at h ⊢

theorem valid_iff (v : JsonValue) :
    isValidOllamaPayload v = true ↔ validPayloadSpec v := by
  cases v with
  | null => simp [isValidOllamaPayload, validPayloadSpec, isNullJson, typeofObject]
  | bool b => simp [isValidOllamaPayload, validPayloadSpec, isNullJson, typeofObject]
  | num n => simp [isValidOllamaPayload, validPayloadSpec, isNullJson, typeofObject]
  | str s => simp [isValidOllamaPayload, validPayloadSpec, isNullJson, typeofObject]
  | arr es =>
    simp [isValidOllamaPayload, validPayloadSpec, isNullJson, typeofObject, jget]
  | obj fields =>
    constructor
    · intro h
      unfold isValidOllamaPayload at h
      rw [if_neg (by simp [typeofObject, isNullJson])] at h
      split at h
      case h_2 => cases h
      next s heq =>
        split at h
        case h_2 => cases h
        next profile heqp =>
          split at h
          · cases h
          · split at h
            case h_2 => cases h
            next a b c ha hb hc =>
              obtain ⟨pf, hpf⟩ := jget_some_obj profile "stability" _ ha
              exact ⟨⟨fields, rfl⟩, ⟨s, heq⟩, profile, heqp, ⟨pf, hpf⟩,
                ⟨a, ha⟩, ⟨b, hb⟩, ⟨c, hc⟩⟩
    · rintro ⟨⟨f2, hv⟩, ⟨s, hs⟩, profile, hp, ⟨pf, hpf⟩, ⟨a, ha⟩, ⟨b, hb⟩, ⟨c, hc⟩⟩
      subst hpf
      unfold isValidOllamaPayload
      rw [if_neg (by simp [typeofObject, isNullJson])]
      simp only [hs, hp, ha, hb, hc, typeofObject, isNullJson]
      simp

/-- C7: `isValidOllamaPayload` returns true exactly on the shapes the spec
describes; in particular a string-typed axis value such as `"50"` is
rejected with no coercion, and a payload missing `psych_profile` (such as
the reply-only object of end-to-end scenario D) fails validation. -/
theorem isValidOllamaPayload_characterization :
    (∀ v, isValidOllamaPayload v = true ↔ validPayloadSpec v) ∧
    isValidOllamaPayload (JsonValue.obj
      [("reply", .str "ok"),
       ("psych_profile", .obj
         [("stability", .str "50"), ("aggression", .num 1),
          ("deception", .num 2)])]) = false ∧
    isValidOllamaPayload (JsonValue.obj [("reply", .str "ok")]) = false :=
  ⟨valid_iff, by decide, by decide⟩

/-- Witness for C7: a well-shaped payload is accepted, via the
characterization applied at a concrete object. -/
theorem isValidOllamaPayload_characterization_witness :
    isValidOllamaPayload (JsonValue.obj
      [("reply", .str "ok"),
       ("psych_profile", .obj
         [("stability", .num 55), ("aggression", .num 25),
          ("deception", .num 90)])]) = true :=
  (isValidOllamaPayload_characterization.1 _).mpr
    ⟨⟨_, rfl⟩, ⟨"ok", rfl⟩,
     .obj [("stability", .num 55), ("aggression", .num 25), ("deception", .num 90)],
     rfl, ⟨_, rfl⟩, ⟨55, rfl⟩, ⟨25, rfl⟩, ⟨90, rfl⟩⟩

/-! ## Pipeline inversion and error-path lemmas -/

theorem parsePhase_ok (body : Option JsonValue) (resp : OllamaResponse)
    (h : parsePhase body = .ok resp) : tryParse body = .ok resp := by
  unfold parsePhase at h
  split at h
  next r heq =>
    injection h with h2
    rw [heq, h2]
  next m heq => split at h <;> cases h

theorem extractJSONCall_ok_shape (content : JsonValue) (cleanJSON : List Char)
    (h : extractJSONCall content = .ok cleanJSON) :
    ∃ s, content = JsonValue.str s ∧ extractJSON s.data = some cleanJSON := by
  unfold extractJSONCall at h
  split at h
  next s =>
    split at h
    next cs hex =>
      injection h with h2
      exact ⟨s, rfl, h2 ▸ hex⟩
    next => cases h
  next elems => split at h <;> cases h
  next => cases h

theorem envContent_eq_some (data m : JsonValue) (s : String)
    (hm : jget data "message" = some m)
    (hc : jget m "content" = some (.str s)) :
    envContent data = some s := by
  unfold envContent
  simp only [hm, hc]

theorem envContent_some_shape (data : JsonValue) (s : String)
    (h : envContent data = some s) :
    ∃ m, jget data "message" = some m ∧ jget m "content" = some (.str s) := by
  unfold envContent at h
  split at h
  next m hm =>
    split at h
    next s2 hc =>
      injection h with h2
      subst h2
      exact ⟨m, hm, hc⟩
    next => cases h
  next => cases h

theorem tryParse_ok_shape (body : Option JsonValue) (resp : OllamaResponse)
    (h : tryParse body = .ok resp) :
    ∃ data rawContent cleanJSON parsed,
      body = some data ∧
      envContent data = some rawContent ∧
      extractJSON rawContent.data = some cleanJSON ∧
      jsonParse cleanJSON = some parsed ∧
      isValidOllamaPayload parsed = true ∧
      jget parsed "reply" = some (.str resp.reply) ∧
      ∃ profile rs ra rd,
        jget parsed "psych_profile" = some profile ∧
        jget profile "stability" = some (.num rs) ∧
        jget profile "aggression" = some (.num ra) ∧
        jget profile "deception" = some (.num rd) ∧
        resp.psych_profile = { stability := clamp rs, aggression := clamp ra,
                               deception := clamp rd,
                               isCritical := decide (clamp rs < 30) } := by
  unfold tryParse at h
  split at h
  · cases h
  next data =>
    split at h
    · cases h
    next m hm =>
      split at h
      · cases h
      next content hc =>
        split at h
        · cases h
        next cleanJSON hcall =>
          obtain ⟨rawContent, hcontent, hex⟩ :=
            extractJSONCall_ok_shape content cleanJSON hcall
          subst hcontent
          split at h
          · cases h
          next parsed hparse =>
            split at h
            · cases h
            next hval =>
              split at h
              case h_2 => cases h
              next reply profile hr hp =>
                split at h
                case h_2 => cases h
                next rs ra rd ha hb hc2 =>
                  cases h
                  refine ⟨data, rawContent, cleanJSON, parsed, rfl,
                    envContent_eq_some data m rawContent hm hc, hex, hparse,
                    ?_, hr, profile, rs, ra, rd, hp, ha, hb, hc2, rfl⟩
                  simpa using hval

theorem interrogate_ok_shape (net : OllamaRequest → FetchOutcome)
    (subject : Subject) (history : List ChatMessage) (userPrompt : String)
    (resp : OllamaResponse)
    (h : interrogate net subject history userPrompt = .ok resp) :
    ∃ status statusText body,
      net (buildRequest subject history userPrompt) = .response status statusText body ∧
      respOk status = true ∧ tryParse body = .ok resp := by
  unfold interrogate at h
  split at h
  · cases h
  next status statusText body heq =>
    split at h
    · cases h
    next hok =>
      refine ⟨status, statusText, body, heq, ?_, parsePhase_ok _ _ h⟩
      simpa using hok

theorem clamp_nonneg (x : Int) : 0 ≤ clamp x := le_max_left 0 _

theorem clamp_le_hundred (x : Int) : clamp x ≤ 100 :=
  max_le (by norm_num) (min_le_left _ _)

/-- C1: for every payload accepted by validation, the emotional state
`interrogate` returns keeps each of its three axis values inside the
closed interval 0 to 100, and its `isCritical` flag holds exactly when
the clamped stability value is below 30; no state outside these bounds is
ever returned. -/
theorem interrogate_emotional_state_bounds (net : OllamaRequest → FetchOutcome)
    (subject : Subject) (history : List ChatMessage) (userPrompt : String)
    (resp : OllamaResponse)
    (h : interrogate net subject history userPrompt = .ok resp) :
    0 ≤ resp.psych_profile.stability ∧ resp.psych_profile.stability ≤ 100 ∧
    0 ≤ resp.psych_profile.aggression ∧ resp.psych_profile.aggression ≤ 100 ∧
    0 ≤ resp.psych_profile.deception ∧ resp.psych_profile.deception ≤ 100 ∧
    (resp.psych_profile.isCritical = true ↔
      resp.psych_profile.stability < 30) := by
  obtain ⟨status, statusText, body, hnet, hok, htp⟩ :=
    interrogate_ok_shape net subject history userPrompt resp h
  obtain ⟨data, rawContent, cleanJSON, parsed, hbody, henv, hex, hparse, hval,
    hr, profile, rs, ra, rd, hp, ha, hb, hc, hprof⟩ := tryParse_ok_shape body resp htp
  rw [hprof]
  refine ⟨clamp_nonneg rs, clamp_le_hundred rs, clamp_nonneg ra,
    clamp_le_hundred ra, clamp_nonneg rd, clamp_le_hundred rd, ?_⟩
  simp

theorem interrogate_response_eq (net : OllamaRequest → FetchOutcome)
    (subject : Subject) (history : List ChatMessage) (userPrompt : String)
    (status : Nat) (statusText : String) (body : Option JsonValue)
    (hnet : net (buildRequest subject history userPrompt) =
      .response status statusText body)
    (hok : respOk status = true) :
    interrogate net subject history userPrompt = parsePhase body := by
  unfold interrogate
  rw [hnet]
  simp [hok]

theorem tryParse_body_none :
    tryParse none = .error "SyntaxError: unexpected end of JSON input" := rfl

theorem tryParse_no_message (data : JsonValue)
    (h : jget data "message" = none) :
    tryParse (some data) =
      .error "TypeError: cannot read properties of undefined" := by
  unfold tryParse
  simp only [h]

theorem tryParse_no_content_field (data m : JsonValue)
    (hm : jget data "message" = some m) (hc : jget m "content" = none) :
    tryParse (some data) =
      .error "TypeError: rawContent.indexOf is not a function" := by
  unfold tryParse
  simp only [hm, hc]

theorem tryParse_content_not_text (data m content : JsonValue)
    (hm : jget data "message" = some m) (hc : jget m "content" = some content)
    (hs : ∀ s, content ≠ JsonValue.str s) (ha : ∀ es, content ≠ JsonValue.arr es) :
    tryParse (some data) =
      .error "TypeError: rawContent.indexOf is not a function" := by
  unfold tryParse
  simp only [hm, hc]
  cases content with
  | str s => exact absurd rfl (hs s)
  | arr es => exact absurd rfl (ha es)
  | null => rfl
  | bool b => rfl
  | num n => rfl
  | obj fields => rfl

theorem tryParse_array_no_brace (data m : JsonValue) (elems : List JsonValue)
    (hm : jget data "message" = some m)
    (hc : jget m "content" = some (.arr elems))
    (hb : (elems.any jsEqOpenBrace && elems.any jsEqCloseBrace) = false) :
    tryParse (some data) = .error extractErrMsg := by
  unfold tryParse
  simp only [hm, hc, extractJSONCall, hb]
  simp

theorem tryParse_array_braces (data m : JsonValue) (elems : List JsonValue)
    (hm : jget data "message" = some m)
    (hc : jget m "content" = some (.arr elems))
    (hb : (elems.any jsEqOpenBrace && elems.any jsEqCloseBrace) = true) :
    tryParse (some data) =
      .error "TypeError: rawContent.substring is not a function" := by
  unfold tryParse
  simp only [hm, hc, extractJSONCall, hb]
  simp

theorem tryParse_extract_fail (data : JsonValue) (rawContent : String)
    (henv : envContent data = some rawContent)
    (hex : extractJSON rawContent.data = none) :
    tryParse (some data) = .error extractErrMsg := by
  obtain ⟨m, hm, hc⟩ := envContent_some_shape data rawContent henv
  unfold tryParse
  simp only [hm, hc, extractJSONCall, hex]

theorem tryParse_decode_fail (data : JsonValue) (rawContent : String)
    (cleanJSON : List Char)
    (henv : envContent data = some rawContent)
    (hex : extractJSON rawContent.data = some cleanJSON)
    (hparse : jsonParse cleanJSON = none) :
    tryParse (some data) = .error "SyntaxError: unexpected token in JSON" := by
  obtain ⟨m, hm, hc⟩ := envContent_some_shape data rawContent henv
  unfold tryParse
  simp only [hm, hc, extractJSONCall, hex, hparse]

theorem tryParse_invalid (data : JsonValue) (rawContent : String)
    (cleanJSON : List Char) (parsed : JsonValue)
    (henv : envContent data = some rawContent)
    (hex : extractJSON rawContent.data = some cleanJSON)
    (hparse : jsonParse cleanJSON = some parsed)
    (hval : isValidOllamaPayload parsed = false) :
    tryParse (some data) = .error "Payload structure validation failed." := by
  obtain ⟨m, hm, hc⟩ := envContent_some_shape data rawContent henv
  unfold tryParse
  simp only [hm, hc, extractJSONCall, hex, hparse, hval]
  simp

theorem parsePhase_untagged (body : Option JsonValue) (m : String)
    (h : tryParse body = .error m)
    (hm : strIncludes m signalCorruptedTag = false) :
    parsePhase body = .error decodeErrMsg := by
  unfold parsePhase
  rw [h]
  simp [hm]

theorem parsePhase_tagged (body : Option JsonValue) (m : String)
    (h : tryParse body = .error m)
    (hm : strIncludes m signalCorruptedTag = true) :
    parsePhase body = .error m := by
  unfold parsePhase
  rw [h]
  simp [hm]

theorem parsePhase_error_tagged_always (body : Option JsonValue) (m : String)
    (h : parsePhase body = .error m) :
    strIncludes m signalCorruptedTag = true := by
  unfold parsePhase at h
  split at h
  · cases h
  next m0 heq =>
    split at h
    next htag =>
      injection h with h2
      rw [← h2]
      exact htag
    next htag =>
      injection h with h2
      rw [← h2]
      decide

theorem leadsWith_refl : ∀ l : List Char, leadsWith l l = true
  | [] => rfl
  | a :: as => by simp [leadsWith, leadsWith_refl as]

theorem containsSeq_self (l : List Char) : containsSeq l l = true := by
  cases l with
  | nil => rfl
  | cons a as => simp [containsSeq, leadsWith_refl]

theorem uplinkErrorMsg_second_char (st : Nat) (stx : String) :
    ((uplinkErrorMsg st stx).data)[1]? = some 'U' := by
  unfold uplinkErrorMsg
  rw [String.data_append, String.data_append, String.data_append]
  have hlit : ("[UPLINK ERROR] Ollama returned status " : String).data.length = 38 := by
    decide
  rw [List.getElem?_append_left (by
    rw [List.length_append, List.length_append, hlit]; omega)]
  rw [List.getElem?_append_left (by rw [List.length_append, hlit]; omega)]
  rw [List.getElem?_append_left (by rw [hlit]; omega)]
  decide

theorem ne_of_second_char (s t : String) (a b : Char)
    (hs : (s.data)[1]? = some a) (ht : (t.data)[1]? = some b)
    (hab : a ≠ b) : s ≠ t := by
  intro h
  rw [h, ht] at hs
  exact hab (Option.some.inj hs).symm

/-- C8: transport outcomes are classified into two distinct failures —
when the fetch call rejects before any HTTP response, `interrogate` fails
with the uplink-severed error, whose message carries no parse-error tag
while every parse-phase error does; when a response arrives with a
non-success status, it fails with the uplink error carrying that status
code and status text; and in the latter case the response body is never
handed to extraction (the result does not depend on it). -/
theorem transport_failure_classification (net : OllamaRequest → FetchOutcome)
    (subject : Subject) (history : List ChatMessage) (userPrompt : String) :
    (net (buildRequest subject history userPrompt) = .networkError →
      interrogate net subject history userPrompt = .error uplinkSeveredMsg) ∧
    (∀ status statusText body,
      net (buildRequest subject history userPrompt) =
        .response status statusText body →
      respOk status = false →
      interrogate net subject history userPrompt =
        .error (uplinkErrorMsg status statusText)) ∧
    (∀ status statusText body1 body2, respOk status = false →
      interrogate (fun _ => .response status statusText body1)
        subject history userPrompt =
      interrogate (fun _ => .response status statusText body2)
        subject history userPrompt) ∧
    (∀ body m, parsePhase body = .error m →
      strIncludes m signalCorruptedTag = true) ∧
    strIncludes uplinkSeveredMsg signalCorruptedTag = false := by
  refine ⟨?_, ?_, ?_, fun body m h => parsePhase_error_tagged_always body m h,
    by decide⟩
  · intro hnet
    unfold interrogate
    rw [hnet]
  · intro status statusText body hnet hbad
    unfold interrogate
    rw [hnet]
    simp [hbad]
  · intro status statusText body1 body2 hbad
    unfold interrogate
    simp [hbad]

/-- C10 (amended): on a success status, a body that does not decode as
JSON, an envelope missing `message` or `message.content`, a content value
that is neither a string nor an array, an array content whose brace scan
finds both brace elements (the following `substring` call throws), and an
extracted span that fails to parse as JSON all make `interrogate` fail
with the same generic signal-corrupted decode error — never a
transport-class error and never a returned default value.  Errors already
carrying the `[SIGNAL CORRUPTED]` tag are re-thrown with their message
preserved: the extraction error from a string content, and — because the
`string` annotation on the content is erased at runtime — the extraction
error an array content without a brace element produces.  (The amendment
splits the array-valued content out of the claim's "lacks a
message.content string implies generic decode error": see the
counterexample.) -/
theorem envelope_decode_error_policy (net : OllamaRequest → FetchOutcome)
    (subject : Subject) (history : List ChatMessage) (userPrompt : String)
    (status : Nat) (statusText : String) (body : Option JsonValue)
    (hnet : net (buildRequest subject history userPrompt) =
      .response status statusText body)
    (hok : respOk status = true) :
    (body = none →
      interrogate net subject history userPrompt = .error decodeErrMsg) ∧
    (∀ data, body = some data → jget data "message" = none →
      interrogate net subject history userPrompt = .error decodeErrMsg) ∧
    (∀ data m, body = some data → jget data "message" = some m →
      jget m "content" = none →
      interrogate net subject history userPrompt = .error decodeErrMsg) ∧
    (∀ data m content, body = some data → jget data "message" = some m →
      jget m "content" = some content →
      (∀ s, content ≠ JsonValue.str s) → (∀ es, content ≠ JsonValue.arr es) →
      interrogate net subject history userPrompt = .error decodeErrMsg) ∧
    (∀ data m elems, body = some data → jget data "message" = some m →
      jget m "content" = some (.arr elems) →
      (elems.any jsEqOpenBrace && elems.any jsEqCloseBrace) = false →
      interrogate net subject history userPrompt = .error extractErrMsg) ∧
    (∀ data m elems, body = some data → jget data "message" = some m →
      jget m "content" = some (.arr elems) →
      (elems.any jsEqOpenBrace && elems.any jsEqCloseBrace) = true →
      interrogate net subject history userPrompt = .error decodeErrMsg) ∧
    (∀ data rawContent cleanJSON, body = some data →
      envContent data = some rawContent →
      extractJSON rawContent.data = some cleanJSON →
      jsonParse cleanJSON = none →
      interrogate net subject history userPrompt = .error decodeErrMsg) ∧
    (∀ data rawContent, body = some data → envContent data = some rawContent →
      extractJSON rawContent.data = none →
      interrogate net subject history userPrompt = .error extractErrMsg) ∧
    decodeErrMsg ≠ uplinkSeveredMsg ∧
    (∀ st stx, decodeErrMsg ≠ uplinkErrorMsg st stx) := by
  have hbase := interrogate_response_eq net subject history userPrompt status
    statusText body hnet hok
  refine ⟨?_, ?_, ?_, ?_, ?_, ?_, ?_, ?_, by decide, ?_⟩
  · intro hb
    rw [hbase, hb]
    exact parsePhase_untagged none _ tryParse_body_none (by decide)
  · intro data hb hm
    rw [hbase, hb]
    exact parsePhase_untagged _ _ (tryParse_no_message data hm) (by decide)
  · intro data m hb hm hc
    rw [hbase, hb]
    exact parsePhase_untagged _ _ (tryParse_no_content_field data m hm hc)
      (by decide)
  · intro data m content hb hm hc hs ha
    rw [hbase, hb]
    exact parsePhase_untagged _ _
      (tryParse_content_not_text data m content hm hc hs ha) (by decide)
  · intro data m elems hb hm hc hbr
    rw [hbase, hb]
    exact parsePhase_tagged _ _ (tryParse_array_no_brace data m elems hm hc hbr)
      (by decide)
  · intro data m elems hb hm hc hbr
    rw [hbase, hb]
    exact parsePhase_untagged _ _ (tryParse_array_braces data m elems hm hc hbr)
      (by decide)
  · intro data rawContent cleanJSON hb henv hex hparse
    rw [hbase, hb]
    exact parsePhase_untagged _ _
      (tryParse_decode_fail data rawContent cleanJSON henv hex hparse) (by decide)
  · intro data rawContent hb henv hex
    rw [hbase, hb]
    exact parsePhase_tagged _ _ (tryParse_extract_fail data rawContent henv hex)
      (by decide)
  · intro st stx
    exact ne_of_second_char _ _ 'S' 'U' (by decide)
      (uplinkErrorMsg_second_char st stx) (by decide)

/-- C2 (amended): if the extracted span parses as JSON but fails the shape
validation, `interrogate` fails with the generic signal-corrupted decode
error — distinguishable from the extraction-failure error, but identical
to the error a JSON-decode failure produces: the internal validation
error is replaced by the catch block before it reaches the caller.  (The
amendment drops the claimed distinguishability from decode failures —
see the counterexample.) -/
theorem invalidPayload_generic_error (net : OllamaRequest → FetchOutcome)
    (subject : Subject) (history : List ChatMessage) (userPrompt : String)
    (status : Nat) (statusText : String) (data : JsonValue)
    (rawContent : String) (cleanJSON : List Char) (parsed : JsonValue)
    (hnet : net (buildRequest subject history userPrompt) =
      .response status statusText (some data))
    (hok : respOk status = true)
    (henv : envContent data = some rawContent)
    (hex : extractJSON rawContent.data = some cleanJSON)
    (hparse : jsonParse cleanJSON = some parsed)
    (hval : isValidOllamaPayload parsed = false) :
    interrogate net subject history userPrompt = .error decodeErrMsg ∧
    decodeErrMsg ≠ extractErrMsg := by
  have hbase := interrogate_response_eq net subject history userPrompt status
    statusText (some data) hnet hok
  refine ⟨?_, by decide⟩
  rw [hbase]
  exact parsePhase_untagged _ _
    (tryParse_invalid data rawContent cleanJSON parsed henv hex hparse hval)
    (by decide)

/-- C9 (amended): the service itself never injects the hidden instruction
text: on success the returned reply is verbatim the `reply` field of the
decoded model payload, so whenever the hidden instruction text does not
occur in that payload field, it neither equals nor occurs as a substring
of anything `interrogate` exposes to the caller.  (The amendment
conditions the guarantee on the model's own output: the code does not
filter a reply in which the model echoes the hidden instructions — see
the counterexample.) -/
theorem reply_passthrough_no_injection (net : OllamaRequest → FetchOutcome)
    (subject : Subject) (history : List ChatMessage) (userPrompt : String)
    (resp : OllamaResponse)
    (h : interrogate net subject history userPrompt = .ok resp) :
    ∃ status statusText data rawContent cleanJSON parsed,
      net (buildRequest subject history userPrompt) =
        .response status statusText (some data) ∧
      envContent data = some rawContent ∧
      extractJSON rawContent.data = some cleanJSON ∧
      jsonParse cleanJSON = some parsed ∧
      jget parsed "reply" = some (.str resp.reply) ∧
      (containsSeq subject.systemPrompt.data resp.reply.data = false →
        resp.reply ≠ subject.systemPrompt ∧
        strIncludes resp.reply subject.systemPrompt = false) := by
  obtain ⟨status, statusText, body, hnet, hok, htp⟩ :=
    interrogate_ok_shape net subject history userPrompt resp h
  obtain ⟨data, rawContent, cleanJSON, parsed, hbody, henv, hex, hparse, hval,
    hr, _⟩ := tryParse_ok_shape body resp htp
  subst hbody
  refine ⟨status, statusText, data, rawContent, cleanJSON, parsed, hnet, henv,
    hex, hparse, hr, fun hnc => ⟨?_, hnc⟩⟩
  intro heq
  rw [heq, containsSeq_self] at hnc
  cases hnc


/-! ## Claims C1, C2, C8, C9, C10: the interrogate pipeline -/

/-- Witness for C1: the bounds hold on the concrete successful run of
scenario A. -/
theorem interrogate_emotional_state_bounds_witness :
    0 ≤ respA.psych_profile.stability ∧ respA.psych_profile.stability ≤ 100 ∧
    0 ≤ respA.psych_profile.aggression ∧ respA.psych_profile.aggression ≤ 100 ∧
    0 ≤ respA.psych_profile.deception ∧ respA.psych_profile.deception ≤ 100 ∧
    (respA.psych_profile.isCritical = true ↔
      respA.psych_profile.stability < 30) :=
  interrogate_emotional_state_bounds netA subj0 [] "q" respA rfl

/-- C2 counterexample: a validation failure (scenario D, payload missing
`psych_profile`) and a JSON-decode failure produce the very same error
value, so the caller cannot distinguish them, refuting the claimed
distinctness from decode failures. -/
theorem invalid_vs_decode_cex :
    interrogate netD subj0 [] "q" = .error decodeErrMsg ∧
    interrogate netBadJson subj0 [] "q" = .error decodeErrMsg :=
  ⟨rfl, rfl⟩

/-- Witness for C2: the amended behavior on the concrete scenario D run. -/
theorem invalidPayload_generic_error_witness :
    interrogate netD subj0 [] "q" = .error decodeErrMsg ∧
    decodeErrMsg ≠ extractErrMsg :=
  invalidPayload_generic_error netD subj0 [] "q" 200 "OK" envD
    "\x7b\"reply\":\"ok\"\x7d" (String.data "\x7b\"reply\":\"ok\"\x7d")
    (JsonValue.obj [("reply", JsonValue.str "ok")])
    rfl (by decide) rfl rfl rfl rfl

/-- Witness for C8: the two transport failures at concrete outcomes. -/
theorem transport_failure_classification_witness :
    interrogate (fun _ => FetchOutcome.networkError) subj0 [] "q" =
      .error uplinkSeveredMsg ∧
    interrogate (fun _ => FetchOutcome.response 404 "Not Found" (some envA))
      subj0 [] "q" = .error (uplinkErrorMsg 404 "Not Found") :=
  ⟨(transport_failure_classification _ subj0 [] "q").1 rfl,
   (transport_failure_classification _ subj0 [] "q").2.1 404 "Not Found"
     (some envA) rfl (by decide)⟩

/-- C10 counterexample: for the envelope whose `message.content` is the
empty JSON array — an envelope lacking a `message.content` string — the
erased `string` annotation lets the array reach the brace scan, where
`indexOf` and `lastIndexOf` both return -1, so the tagged extraction
error is thrown and re-thrown: `interrogate` surfaces the extraction
error, not the generic decode error the claim asserts for every such
envelope. -/
theorem envelope_decode_error_policy_cex :
    interrogate netArr subj0 [] "q" = .error extractErrMsg ∧
    extractErrMsg ≠ decodeErrMsg :=
  ⟨rfl, by decide⟩

/-- Witness for C10: an undecodable body yields the generic decode error,
and a brace-free content string yields the preserved extraction error. -/
theorem envelope_decode_error_policy_witness :
    interrogate netNoBody subj0 [] "q" = .error decodeErrMsg ∧
    interrogate netC subj0 [] "q" = .error extractErrMsg :=
  ⟨(envelope_decode_error_policy netNoBody subj0 [] "q" 200 "OK" none rfl
      (by decide)).1 rfl,
   (envelope_decode_error_policy netC subj0 [] "q" 200 "OK" (some envC) rfl
      (by decide)).2.2.2.2.2.2.2.1 envC "I cannot comply." rfl rfl (by decide)⟩

/-- C9 counterexample: when the model echoes the hidden instruction text in
its reply field, `interrogate` returns it verbatim to the caller — the
returned reply equals the persona's `systemPrompt`, refuting the
unconditional non-leak claim. -/
theorem hidden_instruction_leak_cex :
    interrogate netEcho subj0 [] "q" = .ok respEcho ∧
    respEcho.reply = subj0.systemPrompt ∧
    strIncludes respEcho.reply subj0.systemPrompt = true :=
  ⟨rfl, rfl, by decide⟩

/-- Witness for C9: on the scenario A run the hidden instruction text does
not occur in the payload reply, and the returned reply differs from it. -/
theorem reply_passthrough_no_injection_witness :
    interrogate netA subj0 [] "q" = .ok respA ∧
    respA.reply ≠ subj0.systemPrompt := by
  obtain ⟨st, stx, data, raw, cs, parsed, hnet, henv, hex, hp, hr, himp⟩ :=
    reply_passthrough_no_injection netA subj0 [] "q" respA rfl
  exact ⟨rfl, (himp (by decide)).1⟩
